import Mathlib

/-
Verification development for the argparse single-header library
(src/argparse.hpp). The C++ code is shallowly embedded: each C++
function becomes a Lean definition over explicit state; exceptions
become an `Except` result with an error-kind enumeration (the C++
message strings carry no information relevant to any property and
are elided). std::map / std::unordered_map from names to slot
positions is embedded as an association list with overwrite-on-insert
semantics, which realises the same keyed lookup behaviour.
-/

namespace Argparse

/-- Error kinds corresponding to the exceptions the C++ code can raise:
std::invalid_argument (from sanitize), std::out_of_range (from retrieve),
std::bad_cast (from Any::castTo).  `null_deref_ub` is not an exception:
it marks the undefined behaviour of `Any::toPtr` calling
`content->type_info()` through a null `content` pointer (the
default-constructed, never-stored state). -/
inductive CppExc where
  | invalid_argument : CppExc
  | out_of_range : CppExc
  | bad_cast : CppExc
  | null_deref_ub : CppExc
deriving DecidableEq

/-- The two concrete types ever stored in the type-erased `Any` holder:
`std::string` and `std::vector<std::string>`. -/
inductive AnyContent where
  | str : String → AnyContent
  | vec : List String → AnyContent
deriving DecidableEq

/-- Embedding of the `Any` type-erasure class: `none` is the
default-constructed state (`content == 0`); `some` holds the content
together with its runtime type tag (carried by the constructor). -/
def Any : Type := Option AnyContent

instance : DecidableEq Any := by
  unfold Any
  infer_instance

/-- `Any() : content(0)` — the default-constructed, never-stored state. -/
def anyDefault : Any := none

/-- `castTo<std::string>()`: `toPtr` compares the stored `type_info`
against `typeid(std::string)` and `castTo` throws `std::bad_cast` on
mismatch.  When `content == 0` (default-constructed), the C++ calls
`content->type_info()` through a null pointer: undefined behaviour,
marked `null_deref_ub`. -/
def castToString : Any → Except CppExc String
  | none => .error .null_deref_ub
  | some (.str s) => .ok s
  | some (.vec _) => .error .bad_cast

/-- `castTo<std::vector<std::string>>()`, same conventions as
`castToString`. -/
def castToVector : Any → Except CppExc (List String)
  | none => .error .null_deref_ub
  | some (.vec l) => .ok l
  | some (.str _) => .error .bad_cast

/-- `upper`: `std::transform` with `::toupper` over the characters. -/
def upper (s : String) : String := String.mk (s.data.map Char.toUpper)

/-- The `union { size_t fixed_nargs; char variable_nargs; }` together
with the `bool fixed` discriminant, as a tagged variant.  The
`variable_nargs` character is carried as its code point
(42 = the star character, 43 = the plus character). -/
inductive Arity where
  | fixed_nargs : Nat → Arity
  | variable_nargs : Nat → Arity
deriving DecidableEq

/-- One declared argument: `Argument` struct fields. Names are stored
with leading dashes already stripped (that is what `sanitize` hands
over). -/
structure Argument where
  short_name : String
  name : String
  optional : Bool
  arity : Arity
deriving DecidableEq

/-- The `Argument` constructor: `nargs` is a `char`; the codes for the
star (42) and plus (43) characters select variable arity, anything else
is a fixed count. -/
def mkArgument (short_name nm : String) (optional : Bool) (nargs : Nat) : Argument :=
  if nargs = 43 ∨ nargs = 42 then
    ⟨short_name, nm, optional, .variable_nargs nargs⟩
  else
    ⟨short_name, nm, optional, .fixed_nargs nargs⟩

/-- The `for (n = 0; n < N; ++n) s << u;` loop of `Argument::toString`:
append `u` to `s`, `n` times. -/
def repAppend (s u : String) : Nat → String
  | 0 => s
  | k + 1 => repAppend (s ++ u) u k

/-- `Argument::toString()`: renders one declared argument for the usage
string, following the C++ statement for statement. -/
def Argument.toString (a : Argument) : String :=
  let un := if a.name = "" then upper a.short_name else upper a.name
  let s0 := (if a.optional then "[" else "")
    ++ (if a.name = "" then "-" ++ a.short_name else "--" ++ a.name)
  let s1 :=
    match a.arity with
    | .fixed_nargs f =>
        let s := repAppend s0 (" " ++ un) (min 3 f)
        if min 3 f < f then s ++ " ..." else s
    | .variable_nargs c =>
        s0 ++ " " ++ (if c = 42 then "[" else "") ++ un ++ " "
           ++ (if c = 43 then "[" else "") ++ un ++ "...]"
  s1 ++ (if a.optional then "]" else "")

/-- The name-to-slot index (`IndexMap`), as an association list. -/
def IndexMap : Type := List (String × Nat)

instance : DecidableEq IndexMap := by
  unfold IndexMap
  infer_instance

/-- `index_[name] = N`: overwrite the entry for the key if present,
otherwise add it. -/
def mapInsert (k : String) (v : Nat) : IndexMap → IndexMap
  | [] => [(k, v)]
  | (k2, v2) :: rest => if k2 = k then (k, v) :: rest else (k2, v2) :: mapInsert k v rest

/-- Keyed lookup in the index (`index_.count` / `index_[name]`). -/
def mapFind? (m : IndexMap) (k : String) : Option Nat :=
  match m with
  | [] => none
  | (k2, v) :: rest => if k2 = k then some v else mapFind? rest k

/-- `index_[name]` where the key is expected present; the default `d`
stands for the value-initialised `size_t` that `operator[]` would
insert for an absent key. -/
def mapFindD (m : IndexMap) (k : String) (d : Nat) : Nat :=
  (mapFind? m k).getD d

/-- The `ArgumentParser` member variables.  (`ignore_first_` has no
initialiser in the C++ class; every theorem below quantifies over the
whole state, so no particular initial value is assumed.) -/
structure ArgumentParser where
  index_ : IndexMap
  ignore_first_ : Bool
  app_name_ : String
  final_name_ : String
  arguments_ : List Argument
  variables_ : List Any
deriving DecidableEq

/-- A freshly value-initialised parser state. -/
def emptyParser : ArgumentParser := ⟨[], false, "", "", [], []⟩

/-- `ArgumentParser::insertArgument`: append the descriptor, allocate
its slot (an empty string for fixed arity, an empty vector for variable
arity), and index each non-empty name to the new position. -/
def insertArgument (arg : Argument) (p : ArgumentParser) : ArgumentParser :=
  let N := p.arguments_.length
  let idx1 := if arg.short_name = "" then p.index_ else mapInsert arg.short_name N p.index_
  let idx2 := if arg.name = "" then idx1 else mapInsert arg.name N idx1
  { p with
    index_ := idx2
    arguments_ := p.arguments_ ++ [arg]
    variables_ := p.variables_ ++
      [match arg.arity with
       | .fixed_nargs _ => some (.str "")
       | .variable_nargs _ => some (.vec [])] }

/-- `ArgumentParser::sanitize`: 2-character names must start with a
dash (the character after it is NOT constrained); longer names must
start with two dashes; anything shorter is rejected.  All three
rejection paths throw `std::invalid_argument`. -/
def sanitize (nm : String) : Except CppExc String :=
  if nm.data.length = 2 then
    if nm.data.headD ' ' = '-' then .ok (String.mk (nm.data.drop 1))
    else .error .invalid_argument
  else if 2 < nm.data.length then
    if nm.data.headD ' ' = '-' ∧ nm.data.getD 1 ' ' = '-' then .ok (String.mk (nm.data.drop 2))
    else .error .invalid_argument
  else .error .invalid_argument

/-- `ArgumentParser::addArgument(name, nargs, optional)` (single-name
overload): names longer than two characters become the long name,
otherwise the short name; an exception thrown by `sanitize` propagates. -/
def addArgument (nm : String) (nargs : Nat) (optional : Bool) (p : ArgumentParser) :
    Except CppExc ArgumentParser :=
  if 2 < nm.data.length then
    match sanitize nm with
    | .error e => .error e
    | .ok s => .ok (insertArgument (mkArgument "" s optional nargs) p)
  else
    match sanitize nm with
    | .error e => .error e
    | .ok s => .ok (insertArgument (mkArgument s "" optional nargs) p)

/-- `ArgumentParser::addFinalArgument(name, nargs, optional)`: records
the final name (overwriting any previous one, with no check) and
inserts a descriptor whose long name is `name`, unsanitized.  It cannot
fail. -/
def addFinalArgument (nm : String) (nargs : Nat) (optional : Bool) (p : ArgumentParser) :
    ArgumentParser :=
  insertArgument (mkArgument "" nm optional nargs) { p with final_name_ := nm }

/-- `ArgumentParser::parse(const std::vector<std::string>&)`: the whole
body is the single app-name check; no token is ever bound to a slot. -/
def parse (argv : List String) (p : ArgumentParser) : ArgumentParser :=
  if p.app_name_ = "" ∧ p.ignore_first_ = false ∧ argv ≠ [] then
    { p with app_name_ := argv.headD "" }
  else p

/-- `ArgumentParser::retrieve<std::string>`: `index_.count(name) == 0`
throws `std::out_of_range`; otherwise the slot at `index_[name]` is
cast. -/
def retrieveString (nm : String) (p : ArgumentParser) : Except CppExc String :=
  match mapFind? p.index_ nm with
  | none => .error .out_of_range
  | some i => castToString (p.variables_.getD i anyDefault)

/-- `ArgumentParser::retrieve<std::vector<std::string>>`. -/
def retrieveVector (nm : String) (p : ArgumentParser) : Except CppExc (List String) :=
  match mapFind? p.index_ nm with
  | none => .error .out_of_range
  | some i => castToVector (p.variables_.getD i anyDefault)

/-- `std::string(n, ' ')`. -/
def spaces (n : Nat) : String := String.mk (List.replicate n ' ')

/-- The shared body of the two rendering loops in
`ArgumentParser::usage`: for each rendered descriptor, wrap first if
its length plus the running length exceeds 80 (resetting the running
length to zero and indenting), then append it and a trailing space.  In
the non-wrapping branch only, the running length grows by the
descriptor length (the separating spaces are never counted). -/
def renderLoop (ind : Nat) : List String → String → Nat → String × Nat
  | [], acc, ll => (acc, ll)
  | s :: rest, acc, ll =>
    if s.length + ll > 80 then
      renderLoop ind rest (acc ++ "\n" ++ spaces ind ++ s ++ " ") 0
    else
      renderLoop ind rest (acc ++ s ++ " ") (ll + s.length)

/-- Fallback descriptor for the (never exercised in any theorem below)
out-of-bounds read `arguments_[index_[final_name_]]`, which in C++
would be undefined behaviour. -/
def defaultArgument : Argument := ⟨"", "", false, .fixed_nargs 0⟩

/-- The descriptors processed by the first `usage` loop: not optional,
and with a long name differing from `final_name_` (the `continue`
conditions), in declaration order, rendered by `toString`. -/
def requiredRenders (p : ArgumentParser) : List String :=
  (p.arguments_.filter (fun a => !a.optional && a.name != p.final_name_)).map Argument.toString

/-- The descriptors processed by the second `usage` loop: optional, and
with a long name differing from `final_name_`. -/
def optionalRenders (p : ArgumentParser) : List String :=
  (p.arguments_.filter (fun a => a.optional && a.name != p.final_name_)).map Argument.toString

/-- The `"Usage: " + app_name_ + " "` preamble. -/
def usagePre (p : ArgumentParser) : String := "Usage: " ++ p.app_name_ ++ " "

/-- The accumulated help string after the two rendering loops of
`ArgumentParser::usage`: the required loop runs over the preamble, then
the optional loop continues with the carried-over accumulator and
running length.  (The optional loop's debugging write to std::cout does
not touch the returned string and is not modelled.) -/
def usageAcc (p : ArgumentParser) : String :=
  (renderLoop (usagePre p).length (optionalRenders p)
    (renderLoop (usagePre p).length (requiredRenders p) (usagePre p) 0).1
    (renderLoop (usagePre p).length (requiredRenders p) (usagePre p) 0).2).1

/-- The rendering of `arguments_[index_[final_name_]]` used by the
final section of `usage`. -/
def finalRender (p : ArgumentParser) : String :=
  (p.arguments_.getD (mapFindD p.index_ p.final_name_ 0) defaultArgument).toString

/-- `ArgumentParser::usage()`: the two loops, then the final argument,
if a final name was recorded, appended under its own wrap rule, which
measures the accumulated string length modulo 80. -/
def usage (p : ArgumentParser) : String :=
  if p.final_name_ = "" then usageAcc p
  else
    (if (finalRender p).length + (usageAcc p).length % 80 > 80 then
      usageAcc p ++ "\n" ++ spaces (usagePre p).length
     else usageAcc p) ++ finalRender p

/-- Claim-side description of repetition: `u` repeated `n` times.  Used
to compare the accumulator loop `repAppend` of the source against the
rendering rule as the specification words it. -/
def repeatedStr (u : String) : Nat → String
  | 0 => ""
  | n + 1 => u ++ repeatedStr u n

/-- Claim-side reassembly of a rendering pass: each rendered descriptor
is preceded by a line break plus indentation exactly when its flag is
true, and is followed by the separating space. -/
def assemble (ind : Nat) : List String → List Bool → String
  | [], _ => ""
  | s :: rest, [] => s ++ " " ++ assemble ind rest []
  | s :: rest, b :: bs =>
      (if b then "\n" ++ spaces ind else "") ++ s ++ " " ++ assemble ind rest bs

/-- Substring test: `needle` occurs somewhere inside `hay`. -/
def strContains (needle hay : String) : Bool :=
  (List.range (hay.data.length + 1)).any (fun i => needle.data.isPrefixOf (hay.data.drop i))

/-- The state produced by `addArgument("-x", 1)` on a fresh parser. -/
def c1parser : ArgumentParser :=
  ⟨[("x", 0)], false, "", "", [⟨"x", "", true, .fixed_nargs 1⟩], [some (.str "")]⟩

/-- The state after declaring `--in` with the plus arity once. -/
def dupParser1 : ArgumentParser :=
  ⟨[("in", 0)], false, "", "", [⟨"", "in", true, .variable_nargs 43⟩], [some (.vec [])]⟩

/-- The state after declaring `--in` with the plus arity twice: the
second declaration appended a second descriptor and redirected the
index entry. -/
def dupParser2 : ArgumentParser :=
  ⟨[("in", 1)], false, "", "",
   [⟨"", "in", true, .variable_nargs 43⟩, ⟨"", "in", true, .variable_nargs 43⟩],
   [some (.vec []), some (.vec [])]⟩

/-- The state after `addFinalArgument("out")` on a fresh parser. -/
def finalParser1 : ArgumentParser :=
  ⟨[("out", 0)], false, "", "out", [⟨"", "out", false, .fixed_nargs 1⟩], [some (.str "")]⟩

/-- The state after `addFinalArgument("out")` then
`addFinalArgument("res")`: the final name was silently replaced. -/
def finalParser2 : ArgumentParser :=
  ⟨[("out", 0), ("res", 1)], false, "", "res",
   [⟨"", "out", false, .fixed_nargs 1⟩, ⟨"", "res", false, .fixed_nargs 1⟩],
   [some (.str ""), some (.str "")]⟩

/-- A parser with one fixed-count-1 argument `-x` whose slot holds the
single string "v". -/
def mismatchParser : ArgumentParser :=
  ⟨[("x", 0)], false, "", "", [⟨"x", "", true, .fixed_nargs 1⟩], [some (.str "v")]⟩

/-- A parser with a single required short-only argument and no final
argument. -/
def shortOnlyParser : ArgumentParser :=
  ⟨[("x", 0)], false, "p", "", [⟨"x", "", false, .fixed_nargs 0⟩], [some (.str "")]⟩

/-- Three required long-named non-final descriptors whose rendered
forms have lengths 40, 38 and 7 (total 85). -/
def wideParser : ArgumentParser :=
  ⟨[("abcdefghijklmnopqrstuvwxyzabcdefghijkl", 0),
    ("abcdefghijklmnopqrstuvwxyzabcdefghij", 1), ("abcde", 2)], false, "p", "",
   [⟨"", "abcdefghijklmnopqrstuvwxyzabcdefghijkl", false, .fixed_nargs 0⟩,
    ⟨"", "abcdefghijklmnopqrstuvwxyzabcdefghij", false, .fixed_nargs 0⟩,
    ⟨"", "abcde", false, .fixed_nargs 0⟩],
   [some (.str ""), some (.str ""), some (.str "")]⟩

/-- Three required non-final descriptors whose rendered forms have
lengths 40, 39 and 6 (total 85), the third being short-only: the usage
loops skip it because its empty long name equals the empty final name. -/
def skewParser : ArgumentParser :=
  ⟨[("abcdefghijklmnopqrstuvwxyzabcdefghijkl", 0),
    ("abcdefghijklmnopqrstuvwxyzabcdefghijk", 1), ("x", 2)], false, "p", "",
   [⟨"", "abcdefghijklmnopqrstuvwxyzabcdefghijkl", false, .fixed_nargs 0⟩,
    ⟨"", "abcdefghijklmnopqrstuvwxyzabcdefghijk", false, .fixed_nargs 0⟩,
    ⟨"x", "", false, .fixed_nargs 2⟩],
   [some (.str ""), some (.str ""), some (.str "")]⟩

instance {ε α : Type} [DecidableEq ε] [DecidableEq α] : DecidableEq (Except ε α) := fun a b =>
  match a, b with
  | .error x, .error y =>
      if h : x = y then .isTrue (by rw [h]) else .isFalse (fun hc => by cases hc; exact h rfl)
  | .error _, .ok _ => .isFalse (fun hc => by cases hc)
  | .ok _, .error _ => .isFalse (fun hc => by cases hc)
  | .ok x, .ok y =>
      if h : x = y then .isTrue (by rw [h]) else .isFalse (fun hc => by cases hc; exact h rfl)

/-- Two strings are equal when their character data is. -/
lemma strExt {a b : String} (h : a.data = b.data) : a = b := by
  cases a
  cases b
  exact congrArg String.mk h

/-- The accumulator loop of `Argument::toString` appends the repetition
of its piece to the accumulator. -/
lemma repAppend_eq (s u : String) (n : Nat) : repAppend s u n = s ++ repeatedStr u n := by
  induction n generalizing s with
  | zero => simp [repAppend, repeatedStr]
  | succ k ih => simp [repAppend, repeatedStr, ih, String.append_assoc]

/-- `mapInsert` makes the inserted key resolve to the inserted value. -/
lemma mapFind?_insert_self (m : IndexMap) (k : String) (v : Nat) :
    mapFind? (mapInsert k v m) k = some v := by
  induction m with
  | nil => simp [mapInsert, mapFind?]
  | cons kv rest ih =>
    obtain ⟨k2, v2⟩ := kv
    by_cases h : k2 = k
    · simp [mapInsert, mapFind?, h]
    · simp [mapInsert, mapFind?, h, ih]

/-- A name accepted by `sanitize` is never empty. -/
lemma sanitize_ok_ne_empty {nm s : String} (h : sanitize nm = .ok s) : s ≠ "" := by
  intro hc
  subst hc
  unfold sanitize at h
  split_ifs at h with h1 h2 h3 h4 <;> injection h with h
  · have hd : nm.data.drop 1 = [] := congrArg String.data h
    have hl : nm.data.length - 1 = 0 := by simpa using congrArg List.length hd
    omega
  · have hd : nm.data.drop 2 = [] := congrArg String.data h
    have hl : nm.data.length - 2 = 0 := by simpa using congrArg List.length hd
    omega

/-- Running the rendering loop over a concatenation is running it over
the parts in sequence, carrying the accumulator and running length. -/
lemma renderLoop_append (ind : Nat) (l1 l2 : List String) (acc : String) (ll : Nat) :
    renderLoop ind (l1 ++ l2) acc ll =
      renderLoop ind l2 (renderLoop ind l1 acc ll).1 (renderLoop ind l1 acc ll).2 := by
  induction l1 generalizing acc ll with
  | nil => simp [renderLoop]
  | cons s rest ih =>
    simp only [List.cons_append, renderLoop]
    split <;> apply ih

/-- The rendering loop produces the accumulator followed by the
rendered descriptors in order, separated only by spaces and optional
line breaks. -/
lemma renderLoop_assemble (ind : Nat) (l : List String) : ∀ (acc : String) (ll : Nat),
    ∃ bs : List Bool, bs.length = l.length ∧
      (renderLoop ind l acc ll).1 = acc ++ assemble ind l bs := by
  induction l with
  | nil => intro acc ll; exact ⟨[], rfl, by simp [renderLoop, assemble]⟩
  | cons s rest ih =>
    intro acc ll
    by_cases h : s.length + ll > 80
    · obtain ⟨bs, hlen, he⟩ := ih (acc ++ "\n" ++ spaces ind ++ s ++ " ") 0
      refine ⟨true :: bs, by simp [hlen], ?_⟩
      simp only [renderLoop, if_pos h]
      rw [he]
      simp [assemble, String.append_assoc]
    · obtain ⟨bs, hlen, he⟩ := ih (acc ++ s ++ " ") (ll + s.length)
      refine ⟨false :: bs, by simp [hlen], ?_⟩
      simp only [renderLoop, if_neg h]
      rw [he]
      simp [assemble, String.append_assoc]

/-- An optional descriptor renders as its non-optional rendering
wrapped in square brackets. -/
lemma toString_optional_bracket (a : Argument) (h : a.optional = true) :
    Argument.toString a = "[" ++ Argument.toString ⟨a.short_name, a.name, false, a.arity⟩ ++ "]" := by
  obtain ⟨sn, nm, opt, ar⟩ := a
  cases h
  cases ar with
  | fixed_nargs f =>
    simp only [Argument.toString, repAppend_eq]
    by_cases h3 : min 3 f < f <;>
      simp [h3, String.append_assoc]
  | variable_nargs c =>
    simp [Argument.toString, String.append_assoc]

/-- C1: the spec (and the usage example in the header comment of the
code itself) promise that after declaring `-x` with fixed count 1 and
binding the tokens `[-x, "v"]`, retrieving "x" as a single string
yields "v".  The code's `parse` is a stub: it records the program name
(here the token "-x") and binds nothing, so the slot still holds the
empty string placed there at declaration time and retrieval returns ""
instead of "v". -/
theorem parse_stub_retrieve_yields_empty :
    addArgument "-x" 1 true emptyParser = .ok c1parser ∧
    (parse ["-x", "v"] c1parser).app_name_ = "-x" ∧
    retrieveString "x" (parse ["-x", "v"] c1parser) = .ok "" ∧
    (Except.ok "" : Except CppExc String) ≠ .ok "v" := by decide

/-- C2: `parse` leaves the descriptor list, the value slots and the
name index unchanged, and sets the stored program name to the first
token exactly when the stored name is empty, the ignore-first flag is
false, and the token list is non-empty. -/
theorem parse_frame_and_app_name (p : ArgumentParser) (argv : List String) :
    (parse argv p).index_ = p.index_ ∧
    (parse argv p).arguments_ = p.arguments_ ∧
    (parse argv p).variables_ = p.variables_ ∧
    (parse argv p).final_name_ = p.final_name_ ∧
    (parse argv p).ignore_first_ = p.ignore_first_ ∧
    ((p.app_name_ = "" ∧ p.ignore_first_ = false ∧ argv ≠ []) →
        (parse argv p).app_name_ = argv.headD "") ∧
    (¬(p.app_name_ = "" ∧ p.ignore_first_ = false ∧ argv ≠ []) →
        (parse argv p).app_name_ = p.app_name_) := by
  by_cases h : p.app_name_ = "" ∧ p.ignore_first_ = false ∧ argv ≠ [] <;>
    simp [parse, h]

/-- Witness for C2 at a concrete state and token list. -/
theorem parse_frame_and_app_name_witness :
    (parse ["prog", "a"] emptyParser).app_name_ = "prog" ∧
    (parse ["prog", "a"] emptyParser).arguments_ = emptyParser.arguments_ := by
  have h := parse_frame_and_app_name emptyParser ["prog", "a"]
  exact ⟨h.2.2.2.2.2.1 ⟨rfl, rfl, by decide⟩, h.2.1⟩

/-- C3 counterexample: declaring `--in` twice does not fail (there is
no duplicate check anywhere in the code) and the second declaration
grows the slot count from 1 to 2. -/
theorem addArgument_duplicate_no_failure :
    addArgument "--in" 43 true emptyParser = .ok dupParser1 ∧
    addArgument "--in" 43 true dupParser1 = .ok dupParser2 ∧
    dupParser1.arguments_.length = 1 ∧
    dupParser2.arguments_.length = 2 := by decide

/-- C3 amended: a declaration whose name is already present in the
index succeeds; a new descriptor and a new slot are appended, and the
index entry for that name is redirected to the new slot. -/
theorem addArgument_duplicate_appends (p : ArgumentParser) (nm : String) (nargs : Nat)
    (opt : Bool) (q : ArgumentParser) (i : Nat) (stripped : String)
    (hsan : sanitize nm = .ok stripped)
    (hdup : mapFind? p.index_ stripped = some i)
    (hadd : addArgument nm nargs opt p = .ok q) :
    q.arguments_.length = p.arguments_.length + 1 ∧
    q.variables_.length = p.variables_.length + 1 ∧
    mapFind? q.index_ stripped = some p.arguments_.length := by
  have hne : stripped ≠ "" := sanitize_ok_ne_empty hsan
  unfold addArgument at hadd
  split at hadd <;>
  · rw [hsan] at hadd
    simp only [Except.ok.injEq] at hadd
    subst hadd
    unfold insertArgument mkArgument
    split <;> simp [hne, mapFind?_insert_self]

/-- Witness for C3 amended, at the concrete duplicate declaration. -/
theorem addArgument_duplicate_appends_witness :
    dupParser2.arguments_.length = dupParser1.arguments_.length + 1 ∧
    dupParser2.variables_.length = dupParser1.variables_.length + 1 ∧
    mapFind? dupParser2.index_ "in" = some dupParser1.arguments_.length :=
  addArgument_duplicate_appends dupParser1 "--in" 43 true dupParser2 0 "in"
    (by decide) (by decide) (by decide)

/-- C4 counterexample: declaring a second final argument does not fail
(there is no `MultipleFinalArguments` check in the code); the stored
final name is silently replaced and a second descriptor appended. -/
theorem addFinalArgument_second_no_failure :
    addFinalArgument "out" 1 false emptyParser = finalParser1 ∧
    addFinalArgument "res" 1 false finalParser1 = finalParser2 ∧
    finalParser2.final_name_ = "res" ∧
    finalParser2.arguments_.length = 2 := by decide

/-- C4 amended: on a registry that already has a final argument,
declaring another one succeeds, replaces the stored final name with the
new one, and appends one more descriptor and slot. -/
theorem addFinalArgument_overwrites (p : ArgumentParser) (nm : String) (nargs : Nat)
    (opt : Bool) (hprev : p.final_name_ ≠ "") :
    (addFinalArgument nm nargs opt p).final_name_ = nm ∧
    (addFinalArgument nm nargs opt p).arguments_ = p.arguments_ ++ [mkArgument "" nm opt nargs] ∧
    (addFinalArgument nm nargs opt p).variables_.length = p.variables_.length + 1 := by
  unfold addFinalArgument insertArgument
  simp

/-- Witness for C4 amended, at the concrete second final declaration. -/
theorem addFinalArgument_overwrites_witness :
    (addFinalArgument "res" 1 false finalParser1).final_name_ = "res" ∧
    (addFinalArgument "res" 1 false finalParser1).arguments_ =
      finalParser1.arguments_ ++ [mkArgument "" "res" false 1] ∧
    (addFinalArgument "res" 1 false finalParser1).variables_.length =
      finalParser1.variables_.length + 1 :=
  addFinalArgument_overwrites finalParser1 "res" 1 false (by decide)

/-- C5 counterexample: the 2-character name "-!" is accepted by
`sanitize` although the character after the dash is not alphanumeric:
only the leading dash is checked. -/
theorem sanitize_accepts_nonalnum :
    sanitize "-!" = .ok "!" ∧ "-!".data.length = 2 ∧ '!'.isAlphanum = false := by decide

/-- C5 amended: a 2-character name is accepted exactly when its first
character is a dash (the second character is unconstrained); a longer
name is accepted exactly when it begins with two dashes; names of
length 0 or 1 are always rejected; every rejection is the
`std::invalid_argument` (InvalidNameFormat) error; accepted names are
returned with the leading dash(es) stripped. -/
theorem sanitize_characterisation (nm : String) :
    ((nm.data.length = 2 ∧ nm.data.headD ' ' = '-') →
        sanitize nm = .ok (String.mk (nm.data.drop 1))) ∧
    ((2 < nm.data.length ∧ nm.data.headD ' ' = '-' ∧ nm.data.getD 1 ' ' = '-') →
        sanitize nm = .ok (String.mk (nm.data.drop 2))) ∧
    ((nm.data.length = 2 ∧ nm.data.headD ' ' ≠ '-') →
        sanitize nm = .error .invalid_argument) ∧
    ((2 < nm.data.length ∧ ¬(nm.data.headD ' ' = '-' ∧ nm.data.getD 1 ' ' = '-')) →
        sanitize nm = .error .invalid_argument) ∧
    (nm.data.length < 2 → sanitize nm = .error .invalid_argument) := by
  unfold sanitize
  refine ⟨?_, ?_, ?_, ?_, ?_⟩ <;> intro h <;> split_ifs <;> first | rfl | omega | tauto

/-- Witness for C5 amended: the short name "-x" is accepted and
stripped to "x". -/
theorem sanitize_characterisation_witness : sanitize "-x" = .ok "x" := by
  have h := (sanitize_characterisation "-x").1 ⟨by decide, by decide⟩
  exact h.trans (by decide)

/-- C6: requesting the ordered-sequence shape from a slot that holds a
single string fails with `std::bad_cast` (TypeMismatch) — the cast
throws rather than returning a coerced value — and retrieving a name
absent from the index fails with `std::out_of_range`
(UnknownArgument), for either requested shape. -/
theorem retrieve_mismatch_and_unknown :
    (∀ (p : ArgumentParser) (nm : String) (i : Nat) (s : String),
        mapFind? p.index_ nm = some i →
        (p.arguments_.getD i defaultArgument).arity = .fixed_nargs 1 →
        p.variables_.getD i anyDefault = some (.str s) →
        retrieveVector nm p = .error .bad_cast) ∧
    (∀ (p : ArgumentParser) (nm : String),
        mapFind? p.index_ nm = none →
        retrieveString nm p = .error .out_of_range ∧
        retrieveVector nm p = .error .out_of_range) := by
  constructor
  · intro p nm i s h1 h2 h3
    unfold retrieveVector
    rw [h1]
    show castToVector (p.variables_.getD i anyDefault) = Except.error CppExc.bad_cast
    rw [h3]
    rfl
  · intro p nm h
    refine ⟨?_, ?_⟩
    · unfold retrieveString
      rw [h]
    · unfold retrieveVector
      rw [h]

/-- Witness for C6 at concrete states. -/
theorem retrieve_mismatch_and_unknown_witness :
    retrieveVector "x" mismatchParser = .error .bad_cast ∧
    retrieveString "zzz" emptyParser = .error .out_of_range :=
  ⟨retrieve_mismatch_and_unknown.1 mismatchParser "x" 0 "v" (by decide) (by decide) (by decide),
   (retrieve_mismatch_and_unknown.2 emptyParser "zzz" (by decide)).1⟩

/-- C7: on the default-constructed `Any` (nothing ever stored,
`content == 0`), extraction with either shape does not produce a clean
Empty error: the code calls `content->type_info()` through the null
pointer, which is the undefined-behaviour outcome modelled as
`null_deref_ub`; no Empty error path exists in the code. -/
theorem empty_any_extraction_is_null_deref :
    castToString anyDefault = .error .null_deref_ub ∧
    castToVector anyDefault = .error .null_deref_ub := ⟨rfl, rfl⟩

/-- The indentation string contains no line break. -/
lemma count_nl_spaces (n : Nat) : (spaces n).data.count '\n' = 0 := by
  simp [spaces, List.count_replicate]

/-- The two rendering loops of `usage` compose into one loop over the
required renders followed by the optional renders. -/
lemma usageAcc_eq (p : ArgumentParser) :
    usageAcc p =
      (renderLoop (usagePre p).length (requiredRenders p ++ optionalRenders p)
        (usagePre p) 0).1 := by
  unfold usageAcc
  rw [renderLoop_append]

/-- C8 counterexample: three non-final descriptors whose rendered forms
total 85 characters, the third short-only.  With no final argument
declared, the loops skip the short-only descriptor (its empty long name
equals the empty stored final name), so only 79 characters of renders
reach the line and the usage string contains no line break at all,
not exactly one. -/
theorem usage_three_85_no_break :
    skewParser.arguments_.length = 3 ∧
    skewParser.final_name_ = "" ∧
    (skewParser.arguments_.map (fun a => a.toString.length)).sum = 85 ∧
    (usage skewParser).data.count '\n' = 0 := by decide

/-- C8 amended: for a registry of three non-final descriptors none of
which is skipped by the loops' final-name comparison (their processed
renders are exactly [s1, s2, s3]; with no final argument declared this
means every long name is non-empty), with rendered forms totalling 85
newline-free characters, the usage string contains exactly one line
break, placed immediately before the first descriptor whose rendered
length added to the running length (which counts only the renders since
the last break) exceeds 80, and the break is followed by spaces equal
to the length of the "Usage: " + programName + " " prefix. -/
theorem usage_three_one_break (p : ArgumentParser) (s1 s2 s3 : String)
    (hcnt : p.arguments_.length = 3)
    (hfin : p.final_name_ = "")
    (hproc : requiredRenders p ++ optionalRenders p = [s1, s2, s3])
    (h85 : s1.length + s2.length + s3.length = 85)
    (hn1 : s1.data.count '\n' = 0) (hn2 : s2.data.count '\n' = 0)
    (hn3 : s3.data.count '\n' = 0)
    (hna : p.app_name_.data.count '\n' = 0) :
    usage p =
      (if 80 < s1.length then
        usagePre p ++ "\n" ++ spaces (usagePre p).length ++ s1 ++ " " ++ s2 ++ " " ++ s3 ++ " "
       else if 80 < s1.length + s2.length then
        usagePre p ++ s1 ++ " " ++ "\n" ++ spaces (usagePre p).length ++ s2 ++ " " ++ s3 ++ " "
       else
        usagePre p ++ s1 ++ " " ++ s2 ++ " " ++ "\n" ++ spaces (usagePre p).length ++ s3 ++ " ") ∧
    (usage p).data.count '\n' = 1 := by
  have hU : ("Usage: " : String).data.count '\n' = 0 := by decide
  have hNL : ("\n" : String).data.count '\n' = 1 := by decide
  have hSP : (" " : String).data.count '\n' = 0 := by decide
  have hacc : usage p = (renderLoop (usagePre p).length [s1, s2, s3] (usagePre p) 0).1 := by
    unfold usage
    rw [if_pos hfin, usageAcc_eq, hproc]
  by_cases c1 : 80 < s1.length
  · have hE : usage p =
        usagePre p ++ "\n" ++ spaces (usagePre p).length ++ s1 ++ " " ++ s2 ++ " " ++ s3 ++ " " := by
      rw [hacc]
      simp only [renderLoop]
      rw [if_pos (show 80 < s1.length + 0 by omega),
          if_neg (show ¬(80 < s2.length + 0) by omega),
          if_neg (show ¬(80 < s3.length + (0 + s2.length)) by omega)]
    constructor
    · rw [hE, if_pos c1]
    · rw [hE]
      simp [usagePre, String.data_append, List.count_append, hU, hNL, hSP,
        count_nl_spaces, hn1, hn2, hn3, hna]
  · by_cases c2 : 80 < s1.length + s2.length
    · have hE : usage p =
          usagePre p ++ s1 ++ " " ++ "\n" ++ spaces (usagePre p).length ++ s2 ++ " " ++ s3 ++ " " := by
        rw [hacc]
        simp only [renderLoop]
        rw [if_neg (show ¬(80 < s1.length + 0) by omega),
            if_pos (show 80 < s2.length + (0 + s1.length) by omega),
            if_neg (show ¬(80 < s3.length + 0) by omega)]
      constructor
      · rw [hE, if_neg c1, if_pos c2]
      · rw [hE]
        simp [usagePre, String.data_append, List.count_append, hU, hNL, hSP,
          count_nl_spaces, hn1, hn2, hn3, hna]
    · have hE : usage p =
          usagePre p ++ s1 ++ " " ++ s2 ++ " " ++ "\n" ++ spaces (usagePre p).length ++ s3 ++ " " := by
        rw [hacc]
        simp only [renderLoop]
        rw [if_neg (show ¬(80 < s1.length + 0) by omega),
            if_neg (show ¬(80 < s2.length + (0 + s1.length)) by omega),
            if_pos (show 80 < s3.length + (0 + s1.length + s2.length) by omega)]
      constructor
      · rw [hE, if_neg c1, if_neg c2]
      · rw [hE]
        simp [usagePre, String.data_append, List.count_append, hU, hNL, hSP,
          count_nl_spaces, hn1, hn2, hn3, hna]

/-- Witness for C8 amended at a concrete registry: three required
long-named descriptors rendering at 40, 38 and 7 characters; the one
break falls before the third. -/
theorem usage_three_one_break_witness : (usage wideParser).data.count '\n' = 1 :=
  (usage_three_one_break wideParser
    "--abcdefghijklmnopqrstuvwxyzabcdefghijkl"
    "--abcdefghijklmnopqrstuvwxyzabcdefghij"
    "--abcde"
    (by decide) (by decide) (by decide) (by decide)
    (by decide) (by decide) (by decide) (by decide)).2

/-- C9 counterexample: a required, non-final, short-only descriptor is
omitted from the usage string entirely when no final argument is
declared, because the loops compare its empty long name against the
empty stored final name; so not every non-optional non-final descriptor
appears. -/
theorem usage_omits_short_only_required :
    shortOnlyParser.final_name_ = "" ∧
    (shortOnlyParser.arguments_.getD 0 defaultArgument).optional = false ∧
    (shortOnlyParser.arguments_.getD 0 defaultArgument).toString = "-x" ∧
    usage shortOnlyParser = "Usage: p " ∧
    strContains "-x" (usage shortOnlyParser) = false := by decide

/-- C9 amended: the usage string is the prefix followed by exactly the
renders of the non-optional descriptors whose long name differs from
the stored final name (in declaration order), then the renders of the
optional descriptors whose long name differs from the stored final name
(descriptors whose long name equals the stored final name — every
short-only descriptor when no final argument is declared — are
omitted), glued only by separating spaces and optional break-plus-
indentation, and, when a final name is recorded, the descriptor indexed
by the final name rendered last; every optional descriptor renders
bracketed in square brackets. -/
theorem usage_grouped_order (p : ArgumentParser) :
    (∃ (bs : List Bool) (fb : Bool),
        bs.length = (requiredRenders p ++ optionalRenders p).length ∧
        usage p = usagePre p
          ++ assemble (usagePre p).length (requiredRenders p ++ optionalRenders p) bs
          ++ (if p.final_name_ = "" then ""
              else (if fb then "\n" ++ spaces (usagePre p).length else "") ++ finalRender p)) ∧
    (∀ a : Argument, a.optional = true →
        Argument.toString a = "[" ++ Argument.toString ⟨a.short_name, a.name, false, a.arity⟩ ++ "]") := by
  constructor
  · obtain ⟨bs, hlen, he⟩ := renderLoop_assemble (usagePre p).length
      (requiredRenders p ++ optionalRenders p) (usagePre p) 0
    have hacc : usageAcc p =
        usagePre p ++ assemble (usagePre p).length (requiredRenders p ++ optionalRenders p) bs := by
      rw [usageAcc_eq]
      exact he
    by_cases hfin : p.final_name_ = ""
    · refine ⟨bs, false, hlen, ?_⟩
      unfold usage
      rw [if_pos hfin, hacc, if_pos hfin]
      simp [String.append_assoc]
    · by_cases hc : 80 < (finalRender p).length + (usageAcc p).length % 80
      · refine ⟨bs, true, hlen, ?_⟩
        unfold usage
        rw [if_neg hfin, if_pos hc, hacc, if_neg hfin]
        simp [String.append_assoc]
      · refine ⟨bs, false, hlen, ?_⟩
        unfold usage
        rw [if_neg hfin, if_neg hc, hacc, if_neg hfin]
        simp [String.append_assoc]
  · intro a h
    exact toString_optional_bracket a h

/-- Witness for C9 amended: the bracketing fact instantiated at a
concrete optional descriptor. -/
theorem usage_grouped_order_witness :
    Argument.toString ⟨"", "b", true, .fixed_nargs 1⟩ =
      "[" ++ Argument.toString ⟨"", "b", false, .fixed_nargs 1⟩ ++ "]" :=
  (usage_grouped_order emptyParser).2 ⟨"", "b", true, .fixed_nargs 1⟩ rfl

/-- C10 counterexample: a zero-or-more (star) argument named `--in`
renders as "--in [IN IN...]" — a single pair of brackets around both
placeholder occurrences — not as the nested "--in [IN [IN...]]" the
claim describes. -/
theorem star_rendering_not_nested :
    (Argument.mk "" "in" false (.variable_nargs 42)).toString = "--in [IN IN...]" ∧
    (Argument.mk "" "in" false (.variable_nargs 42)).toString ≠ "--in [IN [IN...]]" := by decide

/-- C10 amended: for fixed count N the upper-cased placeholder is
repeated min(N, 3) times with " ..." appended when N > 3; for the
zero-or-more (star) arity the placeholders render inside one bracket
pair as [NAME NAME...]; for the at-least-one (plus) arity the first
occurrence is unbracketed and followed by the bracketed repetition
[NAME...]; an optional descriptor is additionally wrapped in
brackets. -/
theorem toString_rendering :
    (∀ (sn nm : String) (opt : Bool) (f : Nat),
        (Argument.mk sn nm opt (.fixed_nargs f)).toString =
          (if opt then "[" else "")
            ++ (if nm = "" then "-" ++ sn else "--" ++ nm)
            ++ repeatedStr (" " ++ (if nm = "" then upper sn else upper nm)) (min 3 f)
            ++ (if 3 < f then " ..." else "")
            ++ (if opt then "]" else "")) ∧
    (∀ (sn nm : String) (opt : Bool),
        (Argument.mk sn nm opt (.variable_nargs 42)).toString =
          (if opt then "[" else "")
            ++ (if nm = "" then "-" ++ sn else "--" ++ nm)
            ++ " " ++ "[" ++ (if nm = "" then upper sn else upper nm)
            ++ " " ++ (if nm = "" then upper sn else upper nm) ++ "...]"
            ++ (if opt then "]" else "")) ∧
    (∀ (sn nm : String) (opt : Bool),
        (Argument.mk sn nm opt (.variable_nargs 43)).toString =
          (if opt then "[" else "")
            ++ (if nm = "" then "-" ++ sn else "--" ++ nm)
            ++ " " ++ (if nm = "" then upper sn else upper nm)
            ++ " " ++ "[" ++ (if nm = "" then upper sn else upper nm) ++ "...]"
            ++ (if opt then "]" else "")) := by
  refine ⟨fun sn nm opt f => ?_, fun sn nm opt => ?_, fun sn nm opt => ?_⟩
  · simp only [Argument.toString, repAppend_eq]
    by_cases h3 : 3 < f
    · rw [if_pos (show min 3 f < f by omega), if_pos h3]
    · rw [if_neg (show ¬(min 3 f < f) by omega), if_neg h3]
      simp [String.append_assoc]
  · simp [Argument.toString, String.append_assoc]
  · simp [Argument.toString, String.append_assoc]

end Argparse
